import Mathlib

/-!
Shallow embedding of the profile-selection pipeline of `plot_profiles.py`
from the `tc_wakes` repository.

Arrays are modelled as index functions together with explicit bounds:
a 2-D integer array of shape (N observations x M slots) is a function
`Nat → Nat → Int` read only at indices below the bounds; a 3-D profile
variable of shape (observation x level x slot) is `Nat → Nat → Nat → ℚ`;
the 2-D geographic grids `lon2`/`lat2` are `Int → Int → ℚ` (indexed by
the integer cell coordinates stored in the index arrays).  Numeric values
are rationals, and a Python `datetime` is modelled as a rational day
count on the proleptic Gregorian timeline (days elapsed before the given
instant since the epoch of `datetime.toordinal`, i.e. Jan 1 of year 1 has
day count 0), which preserves sub-day precision exactly.
-/

namespace TCWakes

/-! ## Time decoder (`fractional_year_to_datetime`, lines 8–17) -/

/-- Python `int()` applied to a (finite) real value: truncation toward zero. -/
def pyInt (q : ℚ) : Int := if 0 ≤ q then ⌊q⌋ else ⌈q⌉

/-- The leap-year test exactly as written on line 15 of the source:
`year % 4 == 0 and (year % 100 != 0 or year % 400 == 0)` (Python `%` on a
positive modulus agrees with `Int.emod`). -/
def is_leap (year : Int) : Bool :=
  year % 4 == 0 && (year % 100 != 0 || year % 400 == 0)

/-- Days before January 1 of year `y` on the proleptic Gregorian timeline,
as computed by CPython's `datetime._days_before_year` (the ordinal of
Jan 1 of year `y` minus one).  Only evaluated for `1 ≤ y ≤ 9999`, the
range accepted by the `datetime` constructor, where Lean's integer
division agrees with Python's floor division. -/
def daysBeforeYear (y : Int) : Int :=
  365 * (y - 1) + (y - 1) / 4 - (y - 1) / 100 + (y - 1) / 400

/-- Day count (rational days since the `toordinal` epoch) of midnight,
January 1 of year `y`: the value `datetime.datetime(y, 1, 1)` stands for. -/
def jan1 (y : Int) : ℚ := (daysBeforeYear y : ℚ)

/-- The decoder `fractional_year_to_datetime` (lines 8–17).  `year = int(year_frac)`,
`frac = year_frac - year`, 366 days if `is_leap year` else 365, and the
result is `datetime(year, 1, 1) + timedelta(days = frac * days)`.
The constructor `datetime.datetime(year, 1, 1)` raises `ValueError`
unless `MINYEAR = 1 ≤ year ≤ 9999 = MAXYEAR`; that fatal error is
modelled as `none`. -/
def fractional_year_to_datetime (year_frac : ℚ) : Option ℚ :=
  let year : Int := pyInt year_frac
  let frac : ℚ := year_frac - (year : ℚ)
  let days : ℚ := if is_leap year then 366 else 365
  if 1 ≤ year ∧ year ≤ 9999 then some (jan1 year + frac * days) else none

/-- The Gregorian leap-year rule in the spec's words: divisible by 4,
except centuries unless divisible by 400. -/
def gregorianLeap (y : Int) : Prop := 4 ∣ y ∧ (¬(100 ∣ y) ∨ 400 ∣ y)

instance (y : Int) : Decidable (gregorianLeap y) := by
  unfold gregorianLeap; infer_instance

/-! ## Attribute lookup (`attrs.get("_Fillvalue")`, lines 35, 44–45) -/

/-- The attribute dictionary of a dataset variable, as an association
list; `attrsGet` is Python's `dict.get(key)` returning `None` when the
key is absent. -/
def attrsGet {α : Type} (attrs : List (String × α)) (key : String) : Option α :=
  (attrs.find? (fun p => p.1 == key)).map (fun p => p.2)

/-- The fill-value lookup exactly as the source spells it:
`attrs.get("_Fillvalue")` — note the lower-case `v`. -/
def getFillValue {α : Type} (attrs : List (String × α)) : Option α :=
  attrsGet attrs "_Fillvalue"

/-! ## Collocation selector (lines 48–51) -/

/-- One factor of the mask on line 48: the numpy comparison `arr != fill`.
When the fill attribute is absent (`fill = none`, Python `None`), numpy's
elementwise `arr != None` is `True` everywhere. -/
def nonSentinel (fill : Option Int) (v : Int) : Bool :=
  match fill with
  | none => true
  | some f => v != f

/-- Cell `(o, k)` of `valid_mask = (si != fill_i) & (sj != fill_j)`. -/
def validCell (si sj : Nat → Nat → Int) (fill_i fill_j : Option Int)
    (o k : Nat) : Bool :=
  nonSentinel fill_i (si o k) && nonSentinel fill_j (sj o k)

/-- Column `k` of `counts = valid_mask.sum(axis=0)`: the number of
observations `o < N` whose cell `(o, k)` is valid. -/
def countAt (N : Nat) (si sj : Nat → Nat → Int) (fill_i fill_j : Option Int)
    (k : Nat) : Nat :=
  (List.range N).countP (fun o => validCell si sj fill_i fill_j o k)

/-- The full `counts` vector, one entry per slot `k < M`. -/
def counts (N M : Nat) (si sj : Nat → Nat → Int) (fill_i fill_j : Option Int) :
    List Nat :=
  (List.range M).map (countAt N si sj fill_i fill_j)

/-- Numpy `argmax` on a list: index of the first occurrence of the
maximum (numpy documents that ties return the first occurrence). -/
def argmaxFirst : List Nat → Nat
  | [] => 0
  | x :: xs =>
      if x < xs.getD (argmaxFirst xs) 0 then argmaxFirst xs + 1 else 0

/-- Line 50: `k_max = int(counts.argmax())`. -/
def k_max (N M : Nat) (si sj : Nat → Nat → Int) (fill_i fill_j : Option Int) :
    Nat :=
  argmaxFirst (counts N M si sj fill_i fill_j)

/-- Line 51: `slots = np.where(valid_mask[:, k_max])[0]`, the ascending
list of observation indices valid at the selected slot. -/
def slotsSel (N M : Nat) (si sj : Nat → Nat → Int)
    (fill_i fill_j : Option Int) : List Nat :=
  (List.range N).filter
    (fun o => validCell si sj fill_i fill_j o (k_max N M si sj fill_i fill_j))

/-! ## Coordinate resolver (lines 65–67) and profile assembler (61–69) -/

/-- Lines 65–67: `i_idx = int(si[o, k]); j_idx = int(sj[o, k]);
lon, lat = lon2[j_idx, i_idx], lat2[j_idx, i_idx]`. -/
def resolve (si sj : Nat → Nat → Int) (lon2 lat2 : Int → Int → ℚ)
    (o k : Nat) : ℚ × ℚ :=
  let i_idx := si o k
  let j_idx := sj o k
  (lon2 j_idx i_idx, lat2 j_idx i_idx)

/-- One plotted profile: the data the loop body of lines 61–69 hands to
`ax.plot` for a single observation. -/
structure ResolvedProfile where
  temp : List ℚ
  plev : List ℚ
  lon : ℚ
  lat : ℚ
  label : String
  deriving Repr, DecidableEq

/-- The 1-D slice `da.isel(ni=o, nk=k).values` of a 3-D `(ni, nj, nk)`
variable: the `nj` (vertical level) axis varies, `L` levels. -/
def sliceProfile (L : Nat) (a : Nat → Nat → Nat → ℚ) (o k : Nat) : List ℚ :=
  (List.range L).map (fun lev => a o lev k)

/-- The plotting loop of lines 61–69, as the ordered sequence of profiles
it draws.  `fmt` models the f-string `f"{lon:.2f},{lat:.2f}"` label
formatting (string rendering of numbers is outside the core). -/
def assemble (L : Nat) (slots : List Nat) (k : Nat)
    (sst press : Nat → Nat → Nat → ℚ) (si sj : Nat → Nat → Int)
    (lon2 lat2 : Int → Int → ℚ) (fmt : ℚ → ℚ → String) :
    List ResolvedProfile :=
  slots.map (fun o =>
    let c := resolve si sj lon2 lat2 o k
    { temp := sliceProfile L sst o k
      plev := sliceProfile L press o k
      lon := c.1
      lat := c.2
      label := fmt c.1 c.2 })

/-! ## Time list and title (lines 36–39, 76–77) -/

/-- One entry of the comprehension on lines 36–39:
`fractional_year_to_datetime(tv) if (tfill is None or tv != tfill) else None`.
The outer `Option` is the fatal-error channel (a raise aborts the whole
invocation); the inner `Option ℚ` is the entry itself, `none` standing
for Python `None` ("no timestamp"). -/
def decodeTimeEntry (tfill : Option ℚ) (tv : ℚ) : Option (Option ℚ) :=
  if tfill = none ∨ some tv ≠ tfill then
    (fractional_year_to_datetime tv).map some
  else
    some none

/-- The decoded `times` list (lines 36–39), entrywise. -/
def timesList (tvals : List ℚ) (tfill : Option ℚ) : List (Option (Option ℚ)) :=
  tvals.map (decodeTimeEntry tfill)

/-- Line 76: `times[k_max].strftime("%Y-%m-%d") if times[k_max] else
"unknown_date"`.  A `datetime` is always truthy and `None` falsy, so the
fallback fires exactly on `none`.  `fmtDate` models `strftime`. -/
def dateStrOf (entry : Option ℚ) (fmtDate : ℚ → String) : String :=
  match entry with
  | some d => fmtDate d
  | none => "unknown_date"

/-- Line 77: `f"{prefix}: {len(slots)} profiles on {date_str}"`. -/
def titleOf (base : String) (nProfiles : Nat) (dateStr : String) : String :=
  base ++ ": " ++ toString nProfiles ++ " profiles on " ++ dateStr

/-! ## Helper lemmas about `argmaxFirst` (numpy `argmax`) -/

theorem argmaxFirst_lt_length (l : List Nat) (h : l ≠ []) :
    argmaxFirst l < l.length := by
  induction l with
  | nil => exact absurd rfl h
  | cons x xs ih =>
    by_cases hxs : xs = []
    · subst hxs; simp [argmaxFirst]
    · have hj := ih hxs
      simp only [argmaxFirst, List.length_cons]
      split <;> omega

theorem getD_le_argmaxFirst (l : List Nat) (i : Nat) (h : i < l.length) :
    l.getD i 0 ≤ l.getD (argmaxFirst l) 0 := by
  induction l generalizing i with
  | nil => simp at h
  | cons x xs ih =>
    simp only [argmaxFirst]
    by_cases hc : x < xs.getD (argmaxFirst xs) 0
    · simp only [if_pos hc, List.getD_cons_succ]
      cases i with
      | zero => simpa using le_of_lt hc
      | succ i' =>
        simp only [List.getD_cons_succ]
        exact ih i' (by simpa using h)
    · simp only [if_neg hc, List.getD_cons_zero]
      cases i with
      | zero => simp
      | succ i' =>
        simp only [List.getD_cons_succ]
        exact le_trans (ih i' (by simpa using h)) (Nat.le_of_not_lt hc)

theorem getD_lt_of_lt_argmaxFirst (l : List Nat) (i : Nat)
    (h : i < argmaxFirst l) :
    l.getD i 0 < l.getD (argmaxFirst l) 0 := by
  induction l generalizing i with
  | nil => simp [argmaxFirst] at h
  | cons x xs ih =>
    simp only [argmaxFirst] at h ⊢
    by_cases hc : x < xs.getD (argmaxFirst xs) 0
    · simp only [if_pos hc] at h ⊢
      simp only [List.getD_cons_succ]
      cases i with
      | zero => simpa using hc
      | succ i' =>
        simp only [List.getD_cons_succ]
        exact ih i' (by omega)
    · simp only [if_neg hc] at h
      omega

theorem argmaxFirst_eq_zero_of_all_zero (l : List Nat) (h : ∀ x ∈ l, x = 0) :
    argmaxFirst l = 0 := by
  cases l with
  | nil => rfl
  | cons x xs =>
    have hz : xs.getD (argmaxFirst xs) 0 = 0 := by
      rcases Nat.lt_or_ge (argmaxFirst xs) xs.length with hlt | hge
      · rw [List.getD_eq_getElem?_getD, List.getElem?_eq_getElem hlt,
          Option.getD_some]
        exact h _ (List.mem_cons_of_mem x (List.getElem_mem hlt))
      · exact List.getD_eq_default _ _ hge
    simp only [argmaxFirst, hz]
    simp

/-! ## Helper lemmas about `counts` and `slotsSel` -/

theorem length_counts (N M : Nat) (si sj : Nat → Nat → Int)
    (fi fj : Option Int) : (counts N M si sj fi fj).length = M := by
  simp [counts]

theorem getD_counts (N M : Nat) (si sj : Nat → Nat → Int)
    (fi fj : Option Int) (k : Nat) (h : k < M) :
    (counts N M si sj fi fj).getD k 0 = countAt N si sj fi fj k := by
  unfold counts
  rw [List.getD_eq_getElem?_getD, List.getElem?_map, List.getElem?_range h]
  rfl

theorem mem_slotsSel_iff (N M : Nat) (si sj : Nat → Nat → Int)
    (fi fj : Option Int) (o : Nat) :
    o ∈ slotsSel N M si sj fi fj ↔
      o < N ∧ validCell si sj fi fj o (k_max N M si sj fi fj) = true := by
  simp [slotsSel, List.mem_filter, List.mem_range]

theorem validCell_some_iff (si sj : Nat → Nat → Int) (fi fj : Int)
    (o k : Nat) :
    validCell si sj (some fi) (some fj) o k = true ↔
      si o k ≠ fi ∧ sj o k ≠ fj := by
  simp [validCell, nonSentinel]

/-! ## Claim theorems -/

/-- C1: for every pair of equal-shaped integer index arrays (N
observations x M slots, M ≥ 1) and sentinel values `fill_i`, `fill_j`,
the Collocation-Selector returns a slot below M whose count of valid
cells (valid iff `index_i[obs,slot] ≠ fill_i` and
`index_j[obs,slot] ≠ fill_j`) is ≥ every other slot's count, the
smallest slot index among any tying for the maximum, and the list of
all observation indices valid at that slot in ascending order. -/
theorem selector_correct (N M : Nat) (si sj : Nat → Nat → Int)
    (fi fj : Int) (hM : 1 ≤ M) :
    k_max N M si sj (some fi) (some fj) < M ∧
    (∀ k, k < M →
      countAt N si sj (some fi) (some fj) k ≤
        countAt N si sj (some fi) (some fj)
          (k_max N M si sj (some fi) (some fj))) ∧
    (∀ k, k < M →
      countAt N si sj (some fi) (some fj) k =
        countAt N si sj (some fi) (some fj)
          (k_max N M si sj (some fi) (some fj)) →
      k_max N M si sj (some fi) (some fj) ≤ k) ∧
    (∀ o, o ∈ slotsSel N M si sj (some fi) (some fj) ↔
      o < N ∧ si o (k_max N M si sj (some fi) (some fj)) ≠ fi ∧
        sj o (k_max N M si sj (some fi) (some fj)) ≠ fj) ∧
    (slotsSel N M si sj (some fi) (some fj)).Pairwise (· < ·) := by
  have hlen : (counts N M si sj (some fi) (some fj)).length = M :=
    length_counts N M si sj (some fi) (some fj)
  have hne : counts N M si sj (some fi) (some fj) ≠ [] := by
    intro hnil
    rw [hnil] at hlen
    simp at hlen
    omega
  have hkm : k_max N M si sj (some fi) (some fj) < M := by
    have := argmaxFirst_lt_length _ hne
    rwa [hlen] at this
  have hkmdef : k_max N M si sj (some fi) (some fj) =
      argmaxFirst (counts N M si sj (some fi) (some fj)) := rfl
  refine ⟨hkm, ?_, ?_, ?_, ?_⟩
  · intro k hk
    have h1 := getD_le_argmaxFirst (counts N M si sj (some fi) (some fj)) k
      (by rwa [hlen])
    rw [← hkmdef] at h1
    rwa [getD_counts N M si sj (some fi) (some fj) k hk,
      getD_counts N M si sj (some fi) (some fj) _ hkm] at h1
  · intro k hk heq
    by_contra hlt
    have hk2 : k < k_max N M si sj (some fi) (some fj) := by omega
    rw [hkmdef] at hk2
    have h2 := getD_lt_of_lt_argmaxFirst
      (counts N M si sj (some fi) (some fj)) k hk2
    rw [← hkmdef] at h2
    rw [getD_counts N M si sj (some fi) (some fj) k hk,
      getD_counts N M si sj (some fi) (some fj) _ hkm] at h2
    omega
  · intro o
    rw [mem_slotsSel_iff]
    rw [validCell_some_iff]
  · exact List.Pairwise.sublist (List.filter_sublist _)
      (List.pairwise_lt_range N)

/-- Concrete index array of the spec's scenario A:
`[[5, -1], [-1, 7]]` with sentinel `-1`. -/
def scenA : Nat → Nat → Int := fun o k =>
  if o = 0 ∧ k = 0 then 5 else if o = 1 ∧ k = 1 then 7 else -1

theorem selector_correct_witness :
    1 ≤ 2 ∧ k_max 2 2 scenA scenA (some (-1)) (some (-1)) < 2 :=
  ⟨by decide, (selector_correct 2 2 scenA scenA (-1) (-1) (by decide)).1⟩

/-- C4: when every cell of both index arrays is sentinel, the selector
still returns slot 0 with an empty observation list, the assembler
produces no curves, and the title reads "0 profiles". -/
theorem all_sentinel_degenerate (N M : Nat) (si sj : Nat → Nat → Int)
    (fi fj : Int) (L : Nat) (sst press : Nat → Nat → Nat → ℚ)
    (lon2 lat2 : Int → Int → ℚ) (fmt : ℚ → ℚ → String)
    (base dstr : String) (hM : 1 ≤ M)
    (hall : ∀ o k, o < N → k < M → si o k = fi ∧ sj o k = fj) :
    k_max N M si sj (some fi) (some fj) = 0 ∧
    slotsSel N M si sj (some fi) (some fj) = [] ∧
    assemble L (slotsSel N M si sj (some fi) (some fj))
      (k_max N M si sj (some fi) (some fj)) sst press si sj lon2 lat2 fmt
      = [] ∧
    titleOf base (slotsSel N M si sj (some fi) (some fj)).length dstr =
      base ++ ": 0 profiles on " ++ dstr := by
  have hcell : ∀ o k, o < N → k < M →
      validCell si sj (some fi) (some fj) o k = false := by
    intro o k ho hk
    obtain ⟨h1, h2⟩ := hall o k ho hk
    simp [validCell, nonSentinel, h1, h2]
  have hcnt : ∀ k, k < M → countAt N si sj (some fi) (some fj) k = 0 := by
    intro k hk
    unfold countAt
    rw [List.countP_eq_zero]
    intro o ho
    rw [List.mem_range] at ho
    simp [hcell o k ho hk]
  have hkm : k_max N M si sj (some fi) (some fj) = 0 := by
    unfold k_max
    apply argmaxFirst_eq_zero_of_all_zero
    intro x hx
    unfold counts at hx
    rw [List.mem_map] at hx
    obtain ⟨k, hk, rfl⟩ := hx
    rw [List.mem_range] at hk
    exact hcnt k hk
  have hslots : slotsSel N M si sj (some fi) (some fj) = [] := by
    unfold slotsSel
    rw [List.filter_eq_nil_iff]
    intro o ho
    rw [List.mem_range] at ho
    rw [hkm]
    simp [hcell o 0 ho (by omega)]
  refine ⟨hkm, hslots, ?_, ?_⟩
  · rw [hslots]; rfl
  · rw [hslots]
    show titleOf base 0 dstr = _
    unfold titleOf
    rw [show toString (0 : Nat) = "0" from rfl, String.append_assoc base,
      String.append_assoc base,
      show (": " ++ "0" ++ " profiles on " : String) = ": 0 profiles on "
        from rfl]

/-- Constant all-sentinel index array, zero-filled profile variables and
grids, and a constant label formatter, used as concrete witness data. -/
def allFillArr : Nat → Nat → Int := fun _ _ => -1

def zeroVar3 : Nat → Nat → Nat → ℚ := fun _ _ _ => 0

def zeroGrid : Int → Int → ℚ := fun _ _ => 0

def constLabel : ℚ → ℚ → String := fun _ _ => "L"

theorem all_sentinel_degenerate_witness :
    (∀ o k, o < 2 → k < 2 → allFillArr o k = -1 ∧ allFillArr o k = -1) ∧
    k_max 2 2 allFillArr allFillArr (some (-1)) (some (-1)) = 0 ∧
    slotsSel 2 2 allFillArr allFillArr (some (-1)) (some (-1)) = [] ∧
    assemble 3 (slotsSel 2 2 allFillArr allFillArr (some (-1)) (some (-1)))
      (k_max 2 2 allFillArr allFillArr (some (-1)) (some (-1)))
      zeroVar3 zeroVar3 allFillArr allFillArr zeroGrid zeroGrid constLabel
      = [] ∧
    titleOf "run"
      (slotsSel 2 2 allFillArr allFillArr (some (-1)) (some (-1))).length
      "unknown_date" = "run" ++ ": 0 profiles on " ++ "unknown_date" :=
  ⟨fun _ _ _ _ => ⟨rfl, rfl⟩,
    all_sentinel_degenerate 2 2 allFillArr allFillArr (-1) (-1) 3
      zeroVar3 zeroVar3 zeroGrid zeroGrid constLabel "run" "unknown_date"
      (by decide) (fun _ _ _ _ => ⟨rfl, rfl⟩)⟩

/-- C5: when an index array's fill-value attribute is absent
(`none`), every cell of that array passes its half of the mask; with
both absent every cell is valid, each slot's count is N, and the
selected slot's observation list is all of `0 .. N-1`. -/
theorem missing_fill_permissive (N M : Nat) (si sj : Nat → Nat → Int) :
    (∀ fj o k, validCell si sj none fj o k = nonSentinel fj (sj o k)) ∧
    (∀ fi o k, validCell si sj fi none o k = nonSentinel fi (si o k)) ∧
    (∀ o k, validCell si sj none none o k = true) ∧
    (∀ k, countAt N si sj none none k = N) ∧
    slotsSel N M si sj none none = List.range N := by
  refine ⟨?_, ?_, ?_, ?_, ?_⟩
  · intro fj o k
    simp [validCell, nonSentinel]
  · intro fi o k
    simp [validCell, nonSentinel]
  · intro o k
    rfl
  · intro k
    unfold countAt
    rw [List.countP_eq_length.mpr]
    · exact List.length_range N
    · intro o _
      rfl
  · unfold slotsSel
    rw [List.filter_eq_self.mpr]
    intro o _
    rfl

/-- C2: for every observation selected by the Collocation-Selector, the
Coordinate-Resolver returns exactly the pair
`(geo_lon[j, i], geo_lat[j, i])` for `i = index_i[obs, slot]` and
`j = index_j[obs, slot]` — the grid indexed with row `j` and column `i`
— and those stored indices are indeed non-sentinel. -/
theorem resolver_exact (N M : Nat) (si sj : Nat → Nat → Int) (fi fj : Int)
    (lon2 lat2 : Int → Int → ℚ) (o : Nat)
    (ho : o ∈ slotsSel N M si sj (some fi) (some fj)) :
    resolve si sj lon2 lat2 o (k_max N M si sj (some fi) (some fj)) =
      (lon2 (sj o (k_max N M si sj (some fi) (some fj)))
            (si o (k_max N M si sj (some fi) (some fj))),
       lat2 (sj o (k_max N M si sj (some fi) (some fj)))
            (si o (k_max N M si sj (some fi) (some fj)))) ∧
    si o (k_max N M si sj (some fi) (some fj)) ≠ fi ∧
    sj o (k_max N M si sj (some fi) (some fj)) ≠ fj := by
  rw [mem_slotsSel_iff, validCell_some_iff] at ho
  exact ⟨rfl, ho.2.1, ho.2.2⟩

/-- Geographic grids with distinguishable axes for the witness:
`lon2[j, i] = 1000 j + i`, `lat2[j, i] = 1000 i + j`. -/
def gridLon : Int → Int → ℚ := fun j i => 1000 * j + i

def gridLat : Int → Int → ℚ := fun j i => 1000 * i + j

theorem resolver_exact_witness :
    0 ∈ slotsSel 2 2 scenA scenA (some (-1)) (some (-1)) ∧
    resolve scenA scenA gridLon gridLat 0
        (k_max 2 2 scenA scenA (some (-1)) (some (-1))) =
      (gridLon (scenA 0 (k_max 2 2 scenA scenA (some (-1)) (some (-1))))
               (scenA 0 (k_max 2 2 scenA scenA (some (-1)) (some (-1)))),
       gridLat (scenA 0 (k_max 2 2 scenA scenA (some (-1)) (some (-1))))
               (scenA 0 (k_max 2 2 scenA scenA (some (-1)) (some (-1))))) ∧
    scenA 0 (k_max 2 2 scenA scenA (some (-1)) (some (-1))) ≠ -1 ∧
    scenA 0 (k_max 2 2 scenA scenA (some (-1)) (some (-1))) ≠ -1 :=
  ⟨by decide,
    resolver_exact 2 2 scenA scenA (-1) (-1) gridLon gridLat 0 (by decide)⟩

/-- C6: the Profile-Assembler emits exactly one profile per selected
observation, in the selector's order, and each profile's quantity and
vertical-coordinate sequences are the unmodified 1-D slices of the 3-D
arrays at (that observation, the selected slot), the vertical-level
axis varying — no transformation of the values. -/
theorem assemble_passthrough (L : Nat) (slots : List Nat) (k : Nat)
    (sst press : Nat → Nat → Nat → ℚ) (si sj : Nat → Nat → Int)
    (lon2 lat2 : Int → Int → ℚ) (fmt : ℚ → ℚ → String) :
    (assemble L slots k sst press si sj lon2 lat2 fmt).length =
      slots.length ∧
    (∀ n o, slots.get? n = some o →
      (assemble L slots k sst press si sj lon2 lat2 fmt).get? n =
        some { temp := sliceProfile L sst o k
               plev := sliceProfile L press o k
               lon := lon2 (sj o k) (si o k)
               lat := lat2 (sj o k) (si o k)
               label := fmt (lon2 (sj o k) (si o k))
                            (lat2 (sj o k) (si o k)) }) ∧
    (∀ (a : Nat → Nat → Nat → ℚ) (o : Nat),
      (sliceProfile L a o k).length = L ∧
      ∀ lev, lev < L → (sliceProfile L a o k).get? lev = some (a o lev k)) := by
  refine ⟨by simp [assemble], ?_, ?_⟩
  · intro n o hn
    unfold assemble
    rw [List.get?_map, hn]
    rfl
  · intro a o
    constructor
    · simp [sliceProfile]
    · intro lev hlev
      unfold sliceProfile
      rw [List.get?_map, List.get?_range hlev]
      rfl

theorem assemble_passthrough_witness :
    [0].get? 0 = some 0 ∧
    (assemble 2 [0] 0 zeroVar3 zeroVar3 scenA scenA gridLon gridLat
        constLabel).get? 0 =
      some { temp := sliceProfile 2 zeroVar3 0 0
             plev := sliceProfile 2 zeroVar3 0 0
             lon := gridLon (scenA 0 0) (scenA 0 0)
             lat := gridLat (scenA 0 0) (scenA 0 0)
             label := constLabel (gridLon (scenA 0 0) (scenA 0 0))
                                 (gridLat (scenA 0 0) (scenA 0 0)) } :=
  ⟨rfl, (assemble_passthrough 2 [0] 0 zeroVar3 zeroVar3 scenA scenA gridLon
    gridLat constLabel).2.1 0 0 rfl⟩

/-! ## Helper lemmas for the time decoder -/

theorem is_leap_iff (y : Int) : is_leap y = true ↔ gregorianLeap y := by
  simp only [is_leap, gregorianLeap, Bool.and_eq_true, Bool.or_eq_true,
    beq_iff_eq, bne_iff_ne, ne_eq, Int.dvd_iff_emod_eq_zero]

theorem pyInt_eq_floor (q : ℚ) (h : 0 ≤ q) : pyInt q = ⌊q⌋ := by
  unfold pyInt
  rw [if_pos h]

/-- C3: for every finite non-negative year fraction whose integer year
the `datetime` constructor accepts, the Time-Decoder determines leap
status by the Gregorian rule, uses 366 days if leap else 365, and
returns January 1 of that year plus `fraction * days` days exactly; in
particular `decode(2024.5)` lands 183 days into leap year 2024 and
`decode(2023.5)` lands 182.5 days into non-leap year 2023. -/
theorem time_decoder_correct :
    (∀ y : Int, is_leap y = true ↔ gregorianLeap y) ∧
    (∀ yf : ℚ, 0 ≤ yf → pyInt yf = ⌊yf⌋) ∧
    (∀ yf : ℚ, 0 ≤ yf → 1 ≤ pyInt yf → pyInt yf ≤ 9999 →
      fractional_year_to_datetime yf =
        some (jan1 (pyInt yf) + (yf - (pyInt yf : ℚ)) *
          (if gregorianLeap (pyInt yf) then 366 else 365))) ∧
    fractional_year_to_datetime (2024.5 : ℚ) = some (jan1 2024 + 183) ∧
    fractional_year_to_datetime (2023.5 : ℚ) = some (jan1 2023 + 365 / 2) := by
  refine ⟨is_leap_iff, pyInt_eq_floor, ?_, ?_, ?_⟩
  · intro yf _ h1 h2
    have hif : (if is_leap (pyInt yf) then (366 : ℚ) else 365) =
        (if gregorianLeap (pyInt yf) then (366 : ℚ) else 365) := by
      by_cases hL : gregorianLeap (pyInt yf)
      · rw [if_pos ((is_leap_iff _).mpr hL), if_pos hL]
      · rw [if_neg (fun hc => hL ((is_leap_iff _).mp hc)), if_neg hL]
    simp only [fractional_year_to_datetime]
    rw [if_pos ⟨h1, h2⟩, hif]
  · have hp : pyInt (2024.5 : ℚ) = 2024 := by
      unfold pyInt
      rw [if_pos (by norm_num : (0 : ℚ) ≤ 2024.5), Int.floor_eq_iff]
      norm_num
    simp only [fractional_year_to_datetime]
    rw [hp, if_pos (by norm_num : (1 : Int) ≤ 2024 ∧ (2024 : Int) ≤ 9999),
      if_pos (by decide : is_leap 2024 = true)]
    congr 1
    push_cast
    norm_num
  · have hp : pyInt (2023.5 : ℚ) = 2023 := by
      unfold pyInt
      rw [if_pos (by norm_num : (0 : ℚ) ≤ 2023.5), Int.floor_eq_iff]
      norm_num
    simp only [fractional_year_to_datetime]
    rw [hp, if_pos (by norm_num : (1 : Int) ≤ 2023 ∧ (2023 : Int) ≤ 9999),
      if_neg (by decide : ¬is_leap 2023 = true)]
    congr 1
    push_cast
    norm_num

/-- C3 counterexample: `0.5` is a finite non-negative year fraction, yet
the decoder returns no date at all — `int(0.5) = 0` is below
`datetime.MINYEAR = 1`, so `datetime.datetime(0, 1, 1)` raises
`ValueError` (modelled as `none`) instead of returning January 1 of
year 0 plus `0.5 * days` days as the unrestricted claim would demand. -/
theorem time_decoder_domain_cex :
    (0 : ℚ) ≤ 1 / 2 ∧ fractional_year_to_datetime (1 / 2 : ℚ) = none := by
  constructor
  · norm_num
  · have hp : pyInt (1 / 2 : ℚ) = 0 := by
      unfold pyInt
      rw [if_pos (by norm_num : (0 : ℚ) ≤ 1 / 2), Int.floor_eq_iff]
      norm_num
    simp only [fractional_year_to_datetime]
    rw [hp, if_neg (by decide)]

theorem time_decoder_correct_witness :
    (0 : ℚ) ≤ (2024 : ℚ) ∧ 1 ≤ pyInt (2024 : ℚ) ∧ pyInt (2024 : ℚ) ≤ 9999 ∧
    fractional_year_to_datetime (2024 : ℚ) =
      some (jan1 (pyInt (2024 : ℚ)) +
        ((2024 : ℚ) - (pyInt (2024 : ℚ) : ℚ)) *
        (if gregorianLeap (pyInt (2024 : ℚ)) then 366 else 365)) :=
  ⟨by decide, by decide, by decide,
    time_decoder_correct.2.2.1 2024 (by decide) (by decide) (by decide)⟩

/-- C7: for every negative input year fraction the Time-Decoder fails
fast: `int(year_frac)` is then at most 0, below `datetime.MINYEAR = 1`,
so the `datetime` constructor raises (`none`) instead of returning a
date.  (Non-finite floats have no counterpart in the exact rational
embedding.) -/
theorem negative_year_frac_fatal (yf : ℚ) (h : yf < 0) :
    fractional_year_to_datetime yf = none := by
  have hy : pyInt yf ≤ 0 := by
    unfold pyInt
    rw [if_neg (not_le.mpr h)]
    exact Int.ceil_le.mpr (by exact_mod_cast le_of_lt h)
  unfold fractional_year_to_datetime
  rw [if_neg]
  intro hc
  omega

theorem negative_year_frac_fatal_witness :
    (-1 / 2 : ℚ) < 0 ∧ fractional_year_to_datetime (-1 / 2 : ℚ) = none :=
  ⟨by norm_num, negative_year_frac_fatal (-1 / 2) (by norm_num)⟩

/-- C8: within a fixed representable calendar year, the decoded date is
monotonically increasing in the year fraction. -/
theorem decode_monotone (y : Int) (a b : ℚ) (hy1 : 1 ≤ y) (hy2 : y ≤ 9999)
    (hya : (y : ℚ) ≤ a) (hab : a ≤ b) (hb : b < (y : ℚ) + 1) :
    ∃ da db, fractional_year_to_datetime a = some da ∧
      fractional_year_to_datetime b = some db ∧ da ≤ db := by
  have hy0 : (1 : ℚ) ≤ (y : ℚ) := by exact_mod_cast hy1
  have h0a : (0 : ℚ) ≤ a := by linarith
  have h0b : (0 : ℚ) ≤ b := le_trans h0a hab
  have hpa : pyInt a = y := by
    rw [pyInt_eq_floor a h0a, Int.floor_eq_iff]
    exact ⟨hya, lt_of_le_of_lt hab hb⟩
  have hpb : pyInt b = y := by
    rw [pyInt_eq_floor b h0b, Int.floor_eq_iff]
    exact ⟨le_trans hya hab, hb⟩
  have hdays : (0 : ℚ) ≤ (if is_leap y then (366 : ℚ) else 365) := by
    split <;> norm_num
  refine ⟨jan1 y + (a - (y : ℚ)) * (if is_leap y then 366 else 365),
    jan1 y + (b - (y : ℚ)) * (if is_leap y then 366 else 365), ?_, ?_, ?_⟩
  · unfold fractional_year_to_datetime
    rw [hpa, if_pos ⟨hy1, hy2⟩]
  · unfold fractional_year_to_datetime
    rw [hpb, if_pos ⟨hy1, hy2⟩]
  · have : a - (y : ℚ) ≤ b - (y : ℚ) := by linarith
    have := mul_le_mul_of_nonneg_right this hdays
    linarith

theorem decode_monotone_witness :
    ∃ da db, fractional_year_to_datetime (2024.25 : ℚ) = some da ∧
      fractional_year_to_datetime (2024.5 : ℚ) = some db ∧ da ≤ db :=
  decode_monotone 2024 2024.25 2024.5 (by decide) (by decide)
    (by norm_num) (by norm_num) (by norm_num)

/-- C9: a time entry equal to the declared fill value decodes to "no
timestamp" (`none`) — never any default date and without aborting — and
with a `none` entry at the selected slot the title's date text is the
fallback "unknown_date", so the title is still produced. -/
theorem sentinel_time_entry (tvals : List ℚ) (f : ℚ) (k : Nat)
    (fmtDate : ℚ → String) (base : String) (n : Nat)
    (hk : tvals.get? k = some f) :
    (timesList tvals (some f)).get? k = some (some none) ∧
    dateStrOf none fmtDate = "unknown_date" ∧
    titleOf base n (dateStrOf none fmtDate) =
      base ++ ": " ++ toString n ++ " profiles on " ++ "unknown_date" := by
  refine ⟨?_, rfl, rfl⟩
  unfold timesList
  rw [List.get?_map, hk]
  have : decodeTimeEntry (some f) f = some none := by
    unfold decodeTimeEntry
    rw [if_neg]
    simp
  rw [Option.map_some', this]

theorem sentinel_time_entry_witness :
    ([(99 : ℚ)].get? 0 = some 99) ∧
    (timesList [(99 : ℚ)] (some 99)).get? 0 = some (some none) ∧
    dateStrOf none (fun _ => "DATE") = "unknown_date" ∧
    titleOf "run" 7 (dateStrOf none (fun _ => "DATE")) =
      "run" ++ ": " ++ toString 7 ++ " profiles on " ++ "unknown_date" :=
  ⟨rfl, sentinel_time_entry [99] 99 0 (fun _ => "DATE") "run" 7 rfl⟩

/-- C10: the sentinel lookup reads the attribute under exactly the key
"_Fillvalue": that key (first occurrence) yields its value, any
attribute list without that exact key — including one declaring the
conventional spelling "_FillValue" — yields no sentinel, in which case
every index cell is treated as valid and every time entry is decoded. -/
theorem fillvalue_key_exact :
    (∀ (v : Int) (rest : List (String × Int)),
      getFillValue (("_Fillvalue", v) :: rest) = some v) ∧
    (∀ attrs : List (String × Int),
      (∀ p ∈ attrs, p.1 ≠ "_Fillvalue") → getFillValue attrs = none) ∧
    (∀ v : Int, getFillValue [("_FillValue", v)] = none) ∧
    (∀ (vi vj : Int) (si sj : Nat → Nat → Int) (o k : Nat),
      validCell si sj (getFillValue [("_FillValue", vi)])
        (getFillValue [("_FillValue", vj)]) o k = true) ∧
    (∀ (f tv : ℚ),
      decodeTimeEntry (getFillValue [("_FillValue", f)]) tv =
        (fractional_year_to_datetime tv).map some) := by
  have hmiss : ∀ (α : Type) (v : α),
      getFillValue [("_FillValue", v)] = (none : Option α) := by
    intro α v
    unfold getFillValue attrsGet
    rw [List.find?_cons_of_neg]
    · rfl
    · simp
  refine ⟨?_, ?_, hmiss Int, ?_, ?_⟩
  · intro v rest
    unfold getFillValue attrsGet
    rw [List.find?_cons_of_pos]
    · rfl
    · simp
  · intro attrs h
    unfold getFillValue attrsGet
    rw [List.find?_eq_none.mpr]
    · rfl
    · intro p hp
      simpa using h p hp
  · intro vi vj si sj o k
    rw [hmiss Int vi, hmiss Int vj]
    rfl
  · intro f tv
    rw [hmiss ℚ f]
    unfold decodeTimeEntry
    rw [if_pos (Or.inl rfl)]

theorem fillvalue_key_exact_witness :
    (∀ p ∈ [("standard_name", (7 : Int))], p.1 ≠ "_Fillvalue") ∧
    getFillValue [("standard_name", (7 : Int))] = none :=
  ⟨by decide,
    fillvalue_key_exact.2.1 [("standard_name", 7)] (by decide)⟩

end TCWakes
